import Mathlib

/-!
Verification of the `vibe_research` chain-of-custody pipeline.

This file gives a shallow embedding of the decision engines of the
repository's four scripts (`ingest.py`, `parse.py`, `pii_sniff.py`,
`validate_output.py`) and proves properties of them.

Modelling conventions:
* Python strings are Lean `String`s, processed as `List Char`.
* Python `float` thresholds and scores are modelled as exact rationals `ℚ`
  (all comparisons appearing in the claims are far from any rounding
  boundary of binary floating point).
* Python sets are modelled as duplicate-free lists (`List.dedup`), with the
  deterministic `sorted(...)` iteration order modelled by an insertion sort
  over code-point lexicographic order (Python's string order).
* `list.sort(key=...)` is stable; it is modelled by a stable insertion sort
  and characterised by the unique specification of a stable sort
  (permutation + sortedness + preservation of the relative order of
  equal-keyed elements).
* Calls into external collaborators (the `re` regex engine for the one
  irregular multi-alternative filename pattern, GPG, the filesystem, git)
  are modelled as explicit inputs.  The simple regexes
  (`SHA256_PATTERN`, `_CAPITAL_WORD`, `_NUMBER_PATTERN`,
  `_COMPARATIVE_PATTERN`, `SENTENCE_SPLITTER`) are translated to
  executable character-level scanners whose derivation from the Python
  `re` semantics is documented at each definition.
* `sys.exit(n)` is modelled by returning the exit code, and mid-function
  aborts by `Except`.
-/

namespace VibeResearch

/-! ### Character classes (ASCII fragment of Python `re` classes) -/

/-- Python `\s` (ASCII range): space, tab, newline, carriage return,
vertical tab, form feed.  Also the class used by `str.split()` and
`str.strip()` on the ASCII texts in scope. -/
def isPySpace (c : Char) : Bool :=
  c = ' ' || c = '\t' || c = '\n' || c = '\r' || c = '\x0b' || c = '\x0c'

/-- Python `\w` (ASCII fragment): letters, digits, underscore. -/
def isWordChar (c : Char) : Bool :=
  c.isUpper || c.isLower || c.isDigit || c = '_'

/-- Lowercase hex digit, the character class of `SHA256_PATTERN`
(`[0-9a-f]`). -/
def isHexLower (c : Char) : Bool :=
  c.isDigit || ('a' ≤ c && c ≤ 'f')

/-! ### Python string helpers -/

/-- `str.strip()`: drop leading and trailing whitespace. -/
def pstrip (s : String) : String :=
  String.mk (((s.data.dropWhile isPySpace).reverse.dropWhile isPySpace).reverse)

/-- One pass of `str.split()`: accumulate the current chunk (reversed) and
emit it when whitespace is met.  Empty chunks are not produced, exactly as
for Python's no-argument `split`. -/
def pysplitGo : List Char → List Char → List (List Char)
  | [], cur => if cur.isEmpty then [] else [cur.reverse]
  | c :: rest, cur =>
    if isPySpace c then
      if cur.isEmpty then pysplitGo rest [] else cur.reverse :: pysplitGo rest []
    else pysplitGo rest (c :: cur)

/-- Python `str.split()` (no separator): split on whitespace runs,
dropping empty pieces. -/
def pysplit (s : String) : List String :=
  (pysplitGo s.data []).map String.mk

/-- Decompose a string into its maximal runs of `\w` characters, pairing
each run with the text that follows it.  Word-boundary (`\b`) positions of
Python `re` are exactly the starts and ends of these runs, which is the
fact the scanners below rely on. -/
def wordRunsGo : List Char → List Char → List (List Char × List Char)
  | [], cur => if cur.isEmpty then [] else [(cur.reverse, [])]
  | c :: rest, cur =>
    if isWordChar c then wordRunsGo rest (c :: cur)
    else if cur.isEmpty then wordRunsGo rest []
    else (cur.reverse, c :: rest) :: wordRunsGo rest []

def wordRuns (s : List Char) : List (List Char × List Char) :=
  wordRunsGo s []

/-! ### Code-point order on strings (Python's string comparison) -/

/-- Strict code-point lexicographic order on character lists. -/
def lexLt : List Char → List Char → Bool
  | [], [] => false
  | [], _ :: _ => true
  | _ :: _, [] => false
  | c :: cs, d :: ds =>
    if c.val.toNat < d.val.toNat then true
    else if d.val.toNat < c.val.toNat then false
    else lexLt cs ds

/-- Code-point lexicographic `≤` on strings, the order used by Python's
`sorted` on `str`. -/
def strLe (a b : String) : Bool := !(lexLt b.data a.data)

/-- Insert a string into a list, before the first element not strictly
below it. -/
def insertStr (x : String) : List String → List String
  | [] => [x]
  | y :: ys => if lexLt y.data x.data then y :: insertStr x ys else x :: y :: ys

/-- `sorted(...)` over strings: insertion sort by code-point order. -/
def sortStrings : List String → List String
  | [] => []
  | x :: xs => insertStr x (sortStrings xs)

/-! ## `pii_sniff.py` -/

/-- `pii_sniff.MEDIUM_THRESHOLD` — number of MEDIUM hits that triggers
quarantine (line 44). -/
def MEDIUM_THRESHOLD : Nat := 3

/-- `pii_sniff.PiiMatch`.  Python's `end` field is spelled `stop` because
`end` is a Lean keyword. -/
structure PiiMatch where
  pattern_name : String
  confidence : String
  matched_text : String
  start : Nat
  stop : Nat
  deriving DecidableEq, Repr

/-- One raw regex match as produced by `re.Pattern.finditer`:
`(m.start(), m.end(), m.group())`. -/
structure RawMatch where
  start : Nat
  stop : Nat
  text : String
  deriving DecidableEq, Repr

/-- The name/confidence registry of `pii_sniff._PATTERNS`, in source
order.  The compiled regexes themselves are the external `re` engine's
data; a run's match lists are supplied to `scan_text` as the `finditer`
argument, indexed by position in this registry. -/
def PATTERNS : List (String × String) :=
  [("SSN", "HIGH"),
   ("MBI", "HIGH"),
   ("NPI", "HIGH"),
   ("DEA_NUMBER", "HIGH"),
   ("DATE_OF_BIRTH", "HIGH"),
   ("DATE_PATTERN", "MEDIUM"),
   ("PHONE_NUMBER", "MEDIUM"),
   ("EMAIL_ADDRESS", "MEDIUM"),
   ("STREET_ADDRESS", "MEDIUM"),
   ("MEDICAID_ID", "HIGH")]

/-- Tag the raw matches of one registry entry, as the inner loop of
`scan_text` does. -/
def tagMatches (entry : String × String) (raws : List RawMatch) : List PiiMatch :=
  raws.map fun m =>
    { pattern_name := entry.1, confidence := entry.2
      matched_text := m.text, start := m.start, stop := m.stop }

/-- The list `matches` of `scan_text` just before the final
`matches.sort(key=lambda m: m.start)`: all registry entries' matches,
concatenated in registry order. -/
def collectMatches (finditer : Nat → String → List RawMatch) (text : String) :
    List PiiMatch :=
  (PATTERNS.enum.map fun p => tagMatches p.2 (finditer p.1 text)).flatten

/-- Stable insertion by `start`: the new element goes after every element
with a strictly smaller key and before everything else. -/
def insertByStart (x : PiiMatch) : List PiiMatch → List PiiMatch
  | [] => [x]
  | y :: ys => if y.start < x.start then y :: insertByStart x ys else x :: y :: ys

/-- Python's stable `list.sort(key=lambda m: m.start)`, modelled as a
stable insertion sort (stable sorts of a list by a key are unique, so any
stable sort is a faithful model). -/
def sortByStart : List PiiMatch → List PiiMatch
  | [] => []
  | x :: xs => insertByStart x (sortByStart xs)

/-- `pii_sniff.scan_text` (lines 158–173): collect every pattern's matches
with name/confidence/text/span tags, then sort stably by start
position. -/
def scan_text (finditer : Nat → String → List RawMatch) (text : String) :
    List PiiMatch :=
  sortByStart (collectMatches finditer text)

/-- `pii_sniff.assess_risk` (lines 176–198); `ms` is the Python parameter
`matches` (a Lean keyword). -/
def assess_risk (ms : List PiiMatch) : Bool × String :=
  let high_matches := ms.filter fun m => m.confidence == "HIGH"
  let medium_matches := ms.filter fun m => m.confidence == "MEDIUM"
  if high_matches.isEmpty = false then
    let names := String.intercalate ", "
      (sortStrings (high_matches.map (·.pattern_name)).dedup)
    (true, "HIGH-confidence PII detected: " ++ names ++ " (" ++
      toString high_matches.length ++ " instance(s))")
  else if MEDIUM_THRESHOLD ≤ medium_matches.length then
    let names := String.intercalate ", "
      (sortStrings (medium_matches.map (·.pattern_name)).dedup)
    (true, toString medium_matches.length ++
      " MEDIUM-confidence pattern(s) detected (" ++ names ++
      "), at or above threshold of " ++ toString MEDIUM_THRESHOLD ++ ".")
  else
    (false, "No high-risk PII detected.")

/-! ## `validate_output.py` — patterns and extraction

`SHA256_PATTERN = r"\b([0-9a-f]{64})\b"`.  A match must start at a `\b`
(start of a maximal `\w` run, since the first matched character is a word
character) and end at a `\b` after exactly 64 characters; inside a `\w`
run there is no boundary, so the whole run must consist of exactly 64
lowercase-hex characters. -/

/-- A maximal word run that the 64-hex pattern accepts. -/
def isHex64Run (run : List Char) : Bool :=
  run.length = 64 && run.all isHexLower

/-- `validate_output.extract_sha256s` (lines 166–167): the set of 64-hex
tokens of the text (`set(...findall...)`), as a duplicate-free list. -/
def extract_sha256s (text : String) : List String :=
  (((wordRuns text.data).map Prod.fst).filter isHex64Run |>.map String.mk).dedup

/-- `validate_output.extract_filenames` (lines 170–176), with the match
groups of the irregular four-alternative `FILENAME_PATTERN` supplied by
the external `re` engine: each inner list is one match's `m.groups()`.
The function keeps each non-empty group, stripped, as a set. -/
def extract_filenames (matchGroups : List (List (Option String))) : List String :=
  ((matchGroups.map fun gs => ((gs.filterMap id).filter (· ≠ "")).map pstrip).flatten).dedup

/-- `validate_output._FUNCTION_WORDS` (lines 93–104). -/
def FUNCTION_WORDS : List String :=
  ["The", "A", "An", "This", "That", "These", "Those", "It", "He", "She",
   "We", "They", "I", "You", "His", "Her", "Its", "Our", "Their",
   "If", "When", "While", "Although", "Because", "Since", "After",
   "Before", "And", "But", "Or", "Nor", "So", "Yet", "For",
   "In", "On", "At", "By", "To", "Of", "With", "From", "As",
   "Monday", "Tuesday", "Wednesday", "Thursday", "Friday", "Saturday", "Sunday",
   "January", "February", "March", "April", "May", "June",
   "July", "August", "September", "October", "November", "December"]

/-- `_CAPITAL_WORD = r"\b([A-Z][a-z]{1,})\b"`: within a maximal `\w` run
no boundary exists, so a match is exactly a maximal run of the shape one
uppercase letter followed by one or more lowercase letters. -/
def isCapLowerRun (run : List Char) : Bool :=
  match run with
  | c :: rest => c.isUpper && rest.isEmpty = false && rest.all (·.isLower)
  | [] => false

/-- The spelled-out numbers of `_NUMBER_PATTERN` plus its final
`percent` alternative (matched case-insensitively and, because of the
surrounding `\b`s, only as a whole word run). -/
def NUMBER_WORDS : List String :=
  ["one", "two", "three", "four", "five", "six", "seven", "eight", "nine",
   "ten", "eleven", "twelve", "thirteen", "fourteen", "fifteen", "sixteen",
   "seventeen", "eighteen", "nineteen", "twenty", "thirty", "forty", "fifty",
   "sixty", "seventy", "eighty", "ninety", "hundred", "thousand", "million",
   "billion", "trillion", "percent"]

/-- Acceptance of the fractional part `\.\d+` followed by `\b`: having
consumed at least one fraction digit (a word character), the boundary
requires the next character to be a non-word character; a further digit
must be consumed, and any other word character kills the branch. -/
def fracGo : List Char → Bool
  | [] => true
  | c :: rest => if c.isDigit then fracGo rest else !(isWordChar c)

/-- Acceptance of `\d[\d,]*(?:\.\d+)?\b` after its first digit.  `pw` is
the wordness of the last consumed character (digit ⇒ true, comma ⇒
false).  At each point the engine may stop (needing a `\b`, i.e. `pw`
differing from the wordness of the next character), consume a further
digit or comma, or enter the fractional part; backtracking makes the
alternatives a disjunction.  The `\d+%` alternative adds no further
accepted texts: digits followed by `%` already stop at the boundary
before the `%`. -/
def numBodyGo (pw : Bool) : List Char → Bool
  | [] => pw
  | c :: rest =>
    (pw != isWordChar c) ||
    (if c.isDigit || c = ',' then numBodyGo (isWordChar c) rest else false) ||
    (match c, rest with
     | '.', d :: rest' => if d.isDigit then fracGo rest' else false
     | _, _ => false)

/-- Whitespace then a word character: the tail `\s+\w+\b` of the
`more/most/fewer/least` alternatives of `_COMPARATIVE_PATTERN` (the
greedy `\w+` always reaches a boundary at the end of the next word
run). -/
def gapThenWord : List Char → Bool
  | [] => false
  | c :: rest =>
    if isPySpace c then
      match rest with
      | [] => false
      | _ => gapThenWordCont rest
    else false
where gapThenWordCont : List Char → Bool
  | [] => false
  | c :: rest => if isPySpace c then gapThenWordCont rest else isWordChar c

/-- Existence of a `_NUMBER_PATTERN` match in a (word-run, following
text) pair.  A match must start at a run start; a digit start enters the
numeric alternative, and the word alternatives need the run to equal the
word exactly (case-insensitively), since the closing `\b` forbids further
word characters. -/
def cdHitAt (run : List Char) (after : List Char) : Bool :=
  (match run with
   | c :: rest => if c.isDigit then numBodyGo true (rest ++ after) else false
   | [] => false) ||
  NUMBER_WORDS.contains (String.mk (run.map Char.toLower))

/-- Existence of a `_COMPARATIVE_PATTERN` match in a (word-run, following
text) pair: a run ending in `er` (with at least one `\w` before, i.e.
length ≥ 3) or in `est` (length ≥ 4), case-insensitively, or one of the
`more/most/fewer/least` keywords as the whole run followed by whitespace
and a word character.  The explicit `greater/higher/lower than`
alternatives are subsumed by the `er` suffix. -/
def jjrHitAt (run : List Char) (after : List Char) : Bool :=
  let lower := run.map Char.toLower
  (3 ≤ run.length && lower.reverse.take 2 = ['r', 'e']) ||
  (4 ≤ run.length && lower.reverse.take 3 = ['t', 's', 'e']) ||
  (["more", "most", "fewer", "least"].contains (String.mk lower) && gapThenWord after)

/-- The NNP signal of `_pos_signals_with_examples` (lines 220–228):
capitalized words of the sentence minus its first token
(`" ".join(tokens[1:])`), excluding the function-word stoplist. -/
def nnpHits (sentence : String) : List String :=
  let rest := String.intercalate " " ((pysplit sentence).drop 1)
  (((wordRuns rest.data).map Prod.fst).filter isCapLowerRun |>.map String.mk).filter
    (fun w => FUNCTION_WORDS.contains w = false)

/-- The CD signal: some `_NUMBER_PATTERN` match in the full sentence. -/
def cdHit (sentence : String) : Bool :=
  (wordRuns sentence.data).any fun p => cdHitAt p.1 p.2

/-- The JJR signal: some `_COMPARATIVE_PATTERN` match in the full
sentence. -/
def jjrHit (sentence : String) : Bool :=
  (wordRuns sentence.data).any fun p => jjrHitAt p.1 p.2

/-- The signal list of `_pos_signals_with_examples` (lines 208–242): the
empty token list short-circuits to no signals. -/
def posSignals (sentence : String) : List String :=
  if (pysplit sentence).isEmpty then []
  else
    (if (nnpHits sentence).isEmpty = false then ["NNP"] else []) ++
    (if cdHit sentence then ["CD"] else []) ++
    (if jjrHit sentence then ["JJR"] else [])

/-- `validate_output.is_claim_sentence` (lines 245–247), first two
components (the `examples` dictionary only feeds the fix-it hints). -/
def is_claim_sentence (sentence : String) : Bool × List String :=
  let signals := posSignals sentence
  (signals.isEmpty = false, signals)

/-- `validate_output.sentence_has_sha256_citation` (lines 250–251):
non-empty intersection of the sentence's 64-hex tokens with the known
manifest hashes. -/
def sentence_has_sha256_citation (sentence : String) (known_sha256s : List String) :
    Bool :=
  (extract_sha256s sentence).any (known_sha256s.contains ·)

/-! ### Sentence splitting

`SENTENCE_SPLITTER = r"(?<=[.!?])\s+"` used with `re.split`: scanning left
to right, a maximal whitespace run whose first character is preceded by
`.`, `!` or `?` separates two pieces. -/

def isTerminalPunct (c : Char) : Bool := c = '.' || c = '!' || c = '?'

/-- Single pass of `re.split(SENTENCE_SPLITTER, text)`.  `prev` is the
previously consumed character (a space initially: position 0 has no
lookbehind match), `inGap` says whether we are inside a separating
whitespace run, `cur` is the current piece reversed. -/
def splitSentencesGo : List Char → Char → Bool → List Char → List (List Char)
  | [], _, _, cur => [cur.reverse]
  | c :: rest, prev, inGap, cur =>
    if inGap then
      if isPySpace c then splitSentencesGo rest c true cur
      else splitSentencesGo rest c false [c]
    else
      if isPySpace c && isTerminalPunct prev then
        cur.reverse :: splitSentencesGo rest c true []
      else splitSentencesGo rest c false (c :: cur)

/-- The sentence list of `compute_citation_density` (line 255): split,
strip each piece, drop the empty ones. -/
def splitSentences (text : String) : List String :=
  ((splitSentencesGo text.data ' ' false []).map (fun cs => pstrip (String.mk cs))).filter
    (· ≠ "")

/-! ### Citation density -/

/-- One record of `claim_records`/`naked_claims` (the `signal_examples`
dictionary is dropped: it feeds only the fix-it hint text). -/
structure ClaimRecord where
  sentence : String
  signals : List String
  cited : Bool
  deriving DecidableEq, Repr

/-- The result dictionary of `compute_citation_density`. -/
structure DensityResult where
  factual_count : Nat
  cited_count : Nat
  naked_claims : List ClaimRecord
  citation_density : Option ℚ
  non_factual_count : Nat
  total_sentences : Nat

/-- The sentence loop of `compute_citation_density` (lines 261–277),
returning `(claim_records, naked_claims, cited_count, non_claim_count)`. -/
def densityGo (known_sha256s : List String) :
    List String → List ClaimRecord × List ClaimRecord × Nat × Nat
  | [] => ([], [], 0, 0)
  | s :: rest =>
    let t := densityGo known_sha256s rest
    let sig := is_claim_sentence s
    if sig.1 then
      let has_cite := sentence_has_sha256_citation s known_sha256s
      let record : ClaimRecord := ⟨s, sig.2, has_cite⟩
      if has_cite then (record :: t.1, t.2.1, t.2.2.1 + 1, t.2.2.2)
      else (record :: t.1, record :: t.2.1, t.2.2.1, t.2.2.2)
    else (t.1, t.2.1, t.2.2.1, t.2.2.2 + 1)

/-- `validate_output.compute_citation_density` (lines 254–289). -/
def compute_citation_density (response_text : String) (known_sha256s : List String) :
    DensityResult :=
  let sentences := splitSentences response_text
  let t := densityGo known_sha256s sentences
  let factual_count := t.1.length
  { factual_count := factual_count
    cited_count := t.2.2.1
    naked_claims := t.2.1
    citation_density :=
      if factual_count > 0 then some ((t.2.2.1 : ℚ) / factual_count) else none
    non_factual_count := t.2.2.2
    total_sentences := sentences.length }

/-! ### Citation verification -/

/-- One element of the `verified`/`unverified` lists of
`verify_citations`; the Python dict key `type` is spelled `ctype`
(`type` clashes with Lean's universe keyword), and the `detail` key,
present only on unverified entries, is an `Option`. -/
structure Citation where
  ctype : String
  value : String
  status : String
  detail : Option String
  deriving DecidableEq, Repr

/-- `validate_output.verify_citations` (lines 179–203): iterate the
deduplicated hashes in sorted order, then the deduplicated filenames in
sorted order, appending each to `verified` or `unverified` by set
membership.  `matchGroups` is the external `re` engine's output for
`FILENAME_PATTERN` (see `extract_filenames`). -/
def verify_citations (response_text : String)
    (matchGroups : List (List (Option String)))
    (known_sha256s known_filenames : List String) :
    List Citation × List Citation :=
  let hs := sortStrings (extract_sha256s response_text)
  let ns := sortStrings (extract_filenames matchGroups)
  let verified :=
    ((hs.filter (known_sha256s.contains ·)).map fun h =>
      ⟨"sha256", h, "VERIFIED", none⟩) ++
    ((ns.filter (known_filenames.contains ·)).map fun n =>
      ⟨"filename", n, "VERIFIED", none⟩)
  let unverified :=
    ((hs.filter fun h => !(known_sha256s.contains h)).map fun h =>
      ⟨"sha256", h, "UNVERIFIED",
        some "SHA256 not found in manifest. Never ingested or fabricated."⟩) ++
    ((ns.filter fun n => !(known_filenames.contains n)).map fun n =>
      ⟨"filename", n, "UNVERIFIED",
        some "Filename not found in manifest. Never ingested or fabricated."⟩)
  (verified, unverified)

/-! ### Thresholds, passing, audit log, entry point -/

/-- `validate_output.RESEARCH_THRESHOLD` (line 68). -/
def RESEARCH_THRESHOLD : ℚ := 70 / 100

/-- `validate_output.COMPLIANCE_THRESHOLD` (line 69). -/
def COMPLIANCE_THRESHOLD : ℚ := 100 / 100

/-- The default threshold chosen in `main` (line 562). -/
def default_threshold (compliance : Bool) : ℚ :=
  if compliance then COMPLIANCE_THRESHOLD else RESEARCH_THRESHOLD

/-- Line 587: `density_pass = (density is None) or (density >= threshold)`. -/
def density_pass (density : Option ℚ) (threshold : ℚ) : Bool :=
  match density with
  | none => true
  | some d => decide (threshold ≤ d)

/-- Line 589: unverified citations are hard failures only in compliance
mode. -/
def citations_pass (unverified : List Citation) (compliance : Bool) : Bool :=
  if compliance then unverified.isEmpty else true

/-- The audit row written by `append_audit_log` (lines 341–358).  The
timestamp and the 4-decimal rendering of the score are presentation
(the row keeps the score as the logged value, `none` printed `N/A`);
`status` is the `status_str` column. -/
structure AuditRow where
  git_commit : String
  mode : String
  citation_score : Option ℚ
  status : String

/-- `validate_output.append_audit_log` (lines 341–358), producing the row
appended to the log: `status_str = "PASS" if passed else "FAIL"`. -/
def append_audit_log (git_commit mode : String) (citation_density : Option ℚ)
    (passed : Bool) : AuditRow :=
  { git_commit := git_commit, mode := mode
    citation_score := citation_density
    status := if passed then "PASS" else "FAIL" }

/-- The outcome of the checking part of `validate_output.main`
(lines 583–612), given the response text, the manifest sets, the regex
engine's filename match groups, the mode flags, the threshold in force
and the git commit string. -/
structure ValidationRun where
  verified : List Citation
  unverified : List Citation
  density_result : DensityResult
  densityPass : Bool
  citationsPass : Bool
  overall_pass : Bool
  audit_row : AuditRow
  exit_code : Nat

/-- `validate_output.main` after its input loading (lines 583–612):
compute citations and density, derive the pass/fail booleans, append the
audit row (status `overall_pass or draft`, mode suffixed `-DRAFT` for
draft runs), and exit 0 iff `overall_pass or draft`. -/
def run_validate (response_text : String)
    (matchGroups : List (List (Option String)))
    (known_sha256s known_filenames : List String)
    (compliance draft : Bool) (threshold : ℚ) (git_commit : String) :
    ValidationRun :=
  let vu := verify_citations response_text matchGroups known_sha256s known_filenames
  let density_result := compute_citation_density response_text known_sha256s
  let dP := density_pass density_result.citation_density threshold
  let cP := citations_pass vu.2 compliance
  let overall := cP && dP
  let audit_status := overall || draft
  let mode := (if compliance then "COMPLIANCE" else "RESEARCH") ++
    (if draft then "-DRAFT" else "")
  { verified := vu.1, unverified := vu.2
    density_result := density_result
    densityPass := dP, citationsPass := cP
    overall_pass := overall
    audit_row := append_audit_log git_commit mode density_result.citation_density
      audit_status
    exit_code := if overall || draft then 0 else 1 }

/-- The whole of `validate_output.main` (lines 557–612) as an exit code:
the threshold range check exits 2 (line 567), a missing `--input` file
exits 2 (line 576), a missing manifest exits 2 (`load_manifest`,
line 157), then the checks run and the process exits 0 iff
`overall_pass or draft`. -/
def validate_main_exit (threshold_arg : Option ℚ)
    (inputGiven inputExists manifestExists : Bool)
    (response_text : String) (matchGroups : List (List (Option String)))
    (known_sha256s known_filenames : List String)
    (compliance draft : Bool) (git_commit : String) : Nat :=
  let threshold := threshold_arg.getD (default_threshold compliance)
  if ¬ (0 ≤ threshold ∧ threshold ≤ 1) then 2
  else if inputGiven && !inputExists then 2
  else if !manifestExists then 2
  else (run_validate response_text matchGroups known_sha256s known_filenames
    compliance draft threshold git_commit).exit_code

/-! ## `parse.py` -/

/-- The three-state signature-trust classification of
`check_manifest_signature`'s docstring (lines 43–47), extended by the
function's actual degradation path: a present signature that cannot be
checked because GPG is not installed is returned as `UNSIGNED`
(lines 118–125).  `gpgVerify = none` models `FileNotFoundError` (tool not
installed); `some b` models a completed verification with outcome `b`. -/
def signature_state (sigExists : Bool) (gpgVerify : Option Bool) : String :=
  if sigExists then
    match gpgVerify with
    | some true => "SIGNED"
    | some false => "INVALID"
    | none => "UNSIGNED"
  else "UNSIGNED"

/-- `parse.check_manifest_signature` (lines 39–125): `.error` is a
`sys.exit(1)` with the given banner, `.ok` the returned state string. -/
def check_manifest_signature (sigExists : Bool) (gpgVerify : Option Bool)
    (compliance_mode : Bool) : Except String String :=
  if !sigExists then
    if compliance_mode then
      Except.error "CRITICAL: UNSIGNED MANIFEST IN COMPLIANCE MODE"
    else
      Except.ok "UNSIGNED"
  else
    match gpgVerify with
    | some true => Except.ok "SIGNED"
    | some false => Except.error "CRITICAL: MANIFEST SIGNATURE INVALID"
    | none => Except.ok "UNSIGNED"

/-- One element of a parsed-output document. -/
structure Element where
  etype : String
  location : String
  content : String
  deriving DecidableEq, Repr

/-- A manifest entry (`ManifestEntry` of the data model; the dict
appended by `ingest.py`). -/
structure ManifestEntry where
  filename : String
  sha256 : String
  ingested_at : String
  source_path : String
  git_commit : String
  deriving DecidableEq, Repr

/-- The provenance block of `build_output`. -/
structure Provenance where
  filename : String
  sha256 : String
  ingested_at : String
  git_commit : String
  source_path : String
  verified : Bool
  manifest_signature : String
  deriving DecidableEq, Repr

/-- A parsed-output document (`parsed_at` is presentation). -/
structure Output where
  schema_version : String
  provenance : Provenance
  elements : List Element
  deriving DecidableEq, Repr

/-- `parse.OUTPUT_SCHEMA_VERSION` (line 28). -/
def OUTPUT_SCHEMA_VERSION : String := "1.0"

/-- `parse.build_output` (lines 258–273). -/
def build_output (entry : ManifestEntry) (elements : List Element)
    (digest : String) (sig_status : String) : Output :=
  { schema_version := OUTPUT_SCHEMA_VERSION
    provenance :=
      { filename := entry.filename, sha256 := digest
        ingested_at := entry.ingested_at, git_commit := entry.git_commit
        source_path := entry.source_path, verified := true
        manifest_signature := sig_status }
    elements := elements }

/-- `parse.validate_output_schema` (lines 276–301).  The required-field
checks on the top level and the provenance block are satisfied by
construction in this typed model; the per-element checks survive: a
missing field cannot be modelled, but the empty-location rule can. -/
def validate_output_schema (output : Output) : Except String Unit :=
  if output.elements.any (fun el => el.location = "") then
    Except.error "empty location"
  else
    Except.ok ()

/-- `parse.main` (lines 304–462) as an exit code.  Inputs: presence of
the target file, the signature situation, the mode, presence of the
manifest, whether `find_manifest_entry` finds a record, the recomputed
and recorded hashes (`verify_sha256`, lines 143–161), the PII matches of
the extracted text, and the extracted elements.  Every gate exits 1; a
complete run exits 0 (writing the output). -/
def parse_main_exit (fileExists : Bool) (sigExists : Bool)
    (gpgVerify : Option Bool) (compliance_mode : Bool)
    (manifestExists : Bool) (entry : Option ManifestEntry)
    (actual_digest : String) (pii_matches : List PiiMatch)
    (elements : List Element) : Nat :=
  if !fileExists then 1
  else
    match check_manifest_signature sigExists gpgVerify compliance_mode with
    | Except.error _ => 1
    | Except.ok sig_status =>
      if !manifestExists then 1
      else
        match entry with
        | none => 1
        | some e =>
          if actual_digest ≠ e.sha256 then 1
          else if (assess_risk pii_matches).1 then 1
          else
            match validate_output_schema
              (build_output e elements actual_digest sig_status) with
            | Except.error _ => 1
            | Except.ok _ => 0

/-! ## `ingest.py` -/

/-- The lockfile contents written by `write_lockfile` (the two timestamp
fields are presentation).  `manifest_sha256` is an `Option` because
`check_lockfile_integrity` reads it back with
`lock_data.get("manifest_sha256", "")`. -/
structure LockData where
  generated_by : String
  manifest_path : String
  manifest_sha256 : Option String
  deriving DecidableEq, Repr

/-- What reading the lockfile path yields: no file, an unreadable or
corrupt file (`json.JSONDecodeError`/`OSError`, with the message), or
parsed contents. -/
inductive LockRead where
  | missing : LockRead
  | corrupt : String → LockRead
  | good : LockData → LockRead
  deriving DecidableEq, Repr

/-- The failure taxonomy of `check_lockfile_integrity`: both banners are
`sys.exit(1)` Chain-of-Custody breaches; the mismatch banner names the
expected (recorded) and found (recomputed) hashes. -/
inductive IntegrityBreach where
  | corruptLock : String → IntegrityBreach
  | hashMismatch : (expected actual : String) → IntegrityBreach
  deriving DecidableEq, Repr

/-- `ingest.check_lockfile_integrity` (lines 232–280), with the lockfile
read result and the recomputed manifest hash
(`get_manifest_sha256(manifest_path)`) as inputs. -/
def check_lockfile_integrity (lock : LockRead) (actual_hash : String) :
    Except IntegrityBreach Unit :=
  match lock with
  | LockRead.missing => Except.ok ()
  | LockRead.corrupt exc => Except.error (IntegrityBreach.corruptLock exc)
  | LockRead.good lock_data =>
    let recorded_hash := lock_data.manifest_sha256.getD ""
    if recorded_hash ≠ actual_hash then
      Except.error (IntegrityBreach.hashMismatch recorded_hash actual_hash)
    else
      Except.ok ()

/-- `ingest.write_lockfile` (lines 283–299): the lockfile as rewritten,
recording the digest of the just-written manifest. -/
def write_lockfile (manifest_path : String) (digest : String) : LockData :=
  { generated_by := "ingest.py", manifest_path := manifest_path
    manifest_sha256 := some digest }

/-- The on-disk manifest/lockfile pair as `ingest.main` sees it:
`manifest = none` models a missing `manifest.json`. -/
structure IngestState where
  manifest : Option (List ManifestEntry)
  lock : LockRead
  deriving Repr

/-- The append transaction of `ingest.main` (lines 344–392), from the
integrity gate onward: check the lockfile only when the manifest exists
(step 1), load or initialise the manifest (step 3), append the entry
(step 5), write the manifest, and regenerate the lockfile from the new
manifest's hash (step 6).  `hashM` is the content-hash function on
manifest contents (SHA-256 of the serialized file).  On a breach the
state is returned unchanged inside the error. -/
def ingest_append (hashM : List ManifestEntry → String) (manifest_path : String)
    (s : IngestState) (entry : ManifestEntry) :
    Except IntegrityBreach IngestState :=
  let gate : Except IntegrityBreach Unit :=
    match s.manifest with
    | some m => check_lockfile_integrity s.lock (hashM m)
    | none => Except.ok ()
  match gate with
  | Except.error b => Except.error b
  | Except.ok _ =>
    let newManifest := (s.manifest.getD []) ++ [entry]
    let digest := hashM newManifest
    Except.ok { manifest := some newManifest
                lock := LockRead.good (write_lockfile manifest_path digest) }

/-- `N` sequential runs of the append transaction. -/
def ingest_seq (hashM : List ManifestEntry → String) (manifest_path : String) :
    IngestState → List ManifestEntry → Except IntegrityBreach IngestState
  | s, [] => Except.ok s
  | s, e :: es =>
    match ingest_append hashM manifest_path s e with
    | Except.error b => Except.error b
    | Except.ok s' => ingest_seq hashM manifest_path s' es

/-- The lockfile agrees with the manifest as written: the spec's
mutual-consistency invariant. -/
def lockMatches (hashM : List ManifestEntry → String) (s : IngestState) : Prop :=
  ∃ d, s.lock = LockRead.good d ∧
    d.manifest_sha256 = some (hashM (s.manifest.getD []))

/-- A consistent starting state: no manifest yet (nothing to check), no
lockfile yet (first run), or a lockfile recording the manifest's actual
hash. -/
def consistentState (hashM : List ManifestEntry → String) (s : IngestState) :
    Prop :=
  s.manifest = none ∨ s.lock = LockRead.missing ∨ lockMatches hashM s

/-- `ingest.main` (lines 336–398) as an exit code: a missing target file
exits 1 (line 339), an integrity breach exits 1, a completed append exits
0 (the GPG step never changes the exit code: `gpg_sign_manifest` never
raises). -/
def ingest_main_exit (hashM : List ManifestEntry → String)
    (manifest_path : String) (fileExists : Bool) (s : IngestState)
    (entry : ManifestEntry) : Nat :=
  if !fileExists then 1
  else
    match ingest_append hashM manifest_path s entry with
    | Except.error _ => 1
    | Except.ok _ => 0

/-! ## Order and sorting lemmas -/

theorem lexLt_irrefl : ∀ a, lexLt a a = false := by
  intro a
  induction a with
  | nil => simp [lexLt]
  | cons c cs ih => simp [lexLt, ih]

theorem lexLt_trans : ∀ a b c, lexLt a b = true → lexLt b c = true →
    lexLt a c = true := by
  intro a
  induction a with
  | nil =>
    intro b c hab hbc
    cases b with
    | nil => simp [lexLt] at hab
    | cons y ys =>
      cases c with
      | nil => simp [lexLt] at hbc
      | cons z zs => simp [lexLt]
  | cons x xs ih =>
    intro b c hab hbc
    cases b with
    | nil => simp [lexLt] at hab
    | cons y ys =>
      cases c with
      | nil => simp [lexLt] at hbc
      | cons z zs =>
        simp only [lexLt] at hab hbc ⊢
        split_ifs at hab hbc ⊢ <;> try omega
        all_goals first
        | rfl
        | (exact ih ys zs hab hbc)

theorem lexLt_asymm {a b} (h : lexLt a b = true) : lexLt b a = false := by
  by_contra hba
  have hba' : lexLt b a = true := by
    cases hab : lexLt b a with
    | false => exact absurd hab hba
    | true => rfl
  have := lexLt_trans a b a h hba'
  simp [lexLt_irrefl] at this

theorem lexLt_of_lt_of_nlt : ∀ a b c, lexLt a b = true → lexLt c b = false →
    lexLt a c = true := by
  intro a
  induction a with
  | nil =>
    intro b c hab hcb
    cases b with
    | nil => simp [lexLt] at hab
    | cons y ys =>
      cases c with
      | nil => simp [lexLt] at hcb
      | cons z zs => simp [lexLt]
  | cons x xs ih =>
    intro b c hab hcb
    cases b with
    | nil => simp [lexLt] at hab
    | cons y ys =>
      cases c with
      | nil => simp [lexLt] at hcb
      | cons z zs =>
        simp only [lexLt] at hab hcb ⊢
        split_ifs at hab hcb ⊢ <;> try omega
        all_goals first
        | rfl
        | (exact ih ys zs hab hcb)

theorem insertStr_perm (x : String) : ∀ l, (insertStr x l).Perm (x :: l) := by
  intro l
  induction l with
  | nil => simp [insertStr]
  | cons y ys ih =>
    simp only [insertStr]
    split_ifs with h
    · exact ((ih.cons y).trans (List.Perm.swap x y ys))
    · exact List.Perm.refl _

theorem sortStrings_perm : ∀ l, (sortStrings l).Perm l := by
  intro l
  induction l with
  | nil => simp [sortStrings]
  | cons x xs ih =>
    exact ((insertStr_perm x (sortStrings xs)).trans (ih.cons x))

theorem insertStr_sorted (x : String) : ∀ l,
    l.Pairwise (fun a b => strLe a b = true) →
    (insertStr x l).Pairwise (fun a b => strLe a b = true) := by
  intro l
  induction l with
  | nil => simp [insertStr]
  | cons y ys ih =>
    intro h
    rw [List.pairwise_cons] at h
    simp only [insertStr]
    split_ifs with hyx
    · rw [List.pairwise_cons]
      refine ⟨?_, ih h.2⟩
      intro z hz
      rcases List.mem_cons.mp ((insertStr_perm x ys).mem_iff.mp hz) with hzx | hzys
      · subst hzx
        simp [strLe, lexLt_asymm hyx]
      · exact h.1 z hzys
    · rw [List.pairwise_cons]
      refine ⟨?_, List.pairwise_cons.mpr h⟩
      intro z hz
      rcases List.mem_cons.mp hz with hzy | hzys
      · rw [hzy]
        have hyx' : lexLt y.data x.data = false := by simpa using hyx
        simp [strLe, hyx']
      · have hyz := h.1 z hzys
        simp only [strLe] at hyz ⊢
        have hyx' : lexLt y.data x.data = false := by simpa using hyx
        have hzy' : lexLt z.data y.data = false := by simpa using hyz
        by_contra hzx
        have hzx' : lexLt z.data x.data = true := by
          cases hv : lexLt z.data x.data with
          | false => exact absurd hv (by simpa using hzx)
          | true => rfl
        have := lexLt_of_lt_of_nlt _ _ _ hzx' hyx'
        simp [this] at hzy'

theorem sortStrings_sorted : ∀ l,
    (sortStrings l).Pairwise (fun a b => strLe a b = true) := by
  intro l
  induction l with
  | nil => simp [sortStrings]
  | cons x xs ih => exact insertStr_sorted x _ ih

theorem insertByStart_perm (x : PiiMatch) : ∀ l,
    (insertByStart x l).Perm (x :: l) := by
  intro l
  induction l with
  | nil => simp [insertByStart]
  | cons y ys ih =>
    simp only [insertByStart]
    split_ifs with h
    · exact ((ih.cons y).trans (List.Perm.swap x y ys))
    · exact List.Perm.refl _

theorem sortByStart_perm : ∀ l, (sortByStart l).Perm l := by
  intro l
  induction l with
  | nil => simp [sortByStart]
  | cons x xs ih =>
    exact ((insertByStart_perm x (sortByStart xs)).trans (ih.cons x))

theorem insertByStart_pairwise (x : PiiMatch) : ∀ l,
    l.Pairwise (fun a b => a.start ≤ b.start) →
    (insertByStart x l).Pairwise (fun a b => a.start ≤ b.start) := by
  intro l
  induction l with
  | nil => simp [insertByStart]
  | cons y ys ih =>
    intro h
    rw [List.pairwise_cons] at h
    simp only [insertByStart]
    split_ifs with hyx
    · rw [List.pairwise_cons]
      refine ⟨?_, ih h.2⟩
      intro z hz
      rcases List.mem_cons.mp ((insertByStart_perm x ys).mem_iff.mp hz) with hzx | hzys
      · subst hzx; omega
      · exact h.1 z hzys
    · rw [List.pairwise_cons]
      refine ⟨?_, List.pairwise_cons.mpr h⟩
      intro z hz
      rcases List.mem_cons.mp hz with hzy | hzys
      · subst hzy; omega
      · have := h.1 z hzys; omega

theorem sortByStart_pairwise : ∀ l,
    (sortByStart l).Pairwise (fun a b => a.start ≤ b.start) := by
  intro l
  induction l with
  | nil => simp [sortByStart]
  | cons x xs ih => exact insertByStart_pairwise x _ ih

theorem insertByStart_filter (x : PiiMatch) (s : Nat) : ∀ l,
    (insertByStart x l).filter (fun m => m.start == s) =
      if x.start = s then x :: l.filter (fun m => m.start == s)
      else l.filter (fun m => m.start == s) := by
  intro l
  induction l with
  | nil =>
    by_cases hxs : x.start = s
    · have hxs' : (x.start == s) = true := by simpa using hxs
      simp [insertByStart, List.filter_cons, hxs', hxs]
    · have hxs' : (x.start == s) = false := by simpa using hxs
      simp [insertByStart, List.filter_cons, hxs', hxs]
  | cons y ys ih =>
    simp only [insertByStart]
    by_cases hyx : y.start < x.start
    · rw [if_pos hyx]
      by_cases hxs : x.start = s
      · have hys : (y.start == s) = false := by
          simp only [beq_eq_false_iff_ne]; omega
        simp [List.filter_cons, hys, ih, hxs]
      · simp [List.filter_cons, ih, hxs]
    · rw [if_neg hyx]
      by_cases hxs : x.start = s
      · have hxs' : (x.start == s) = true := by simpa using hxs
        simp [List.filter_cons, hxs, hxs']
      · have hxs' : (x.start == s) = false := by simpa using hxs
        simp [List.filter_cons, hxs, hxs']

theorem sortByStart_filter (s : Nat) : ∀ l,
    (sortByStart l).filter (fun m => m.start == s) =
      l.filter (fun m => m.start == s) := by
  intro l
  induction l with
  | nil => simp [sortByStart]
  | cons x xs ih =>
    simp only [sortByStart, insertByStart_filter]
    by_cases h : x.start = s
    · have h' : (x.start == s) = true := by simpa using h
      simp [List.filter_cons, h, h', ih]
    · have h' : (x.start == s) = false := by simpa using h
      simp [List.filter_cons, h, h', ih]

/-- A `countP` splits across a filter and its complement. -/
theorem countP_filter_split {α : Type} (p q : α → Bool) : ∀ l : List α,
    (l.filter p).countP q + (l.filter fun a => !(p a)).countP q = l.countP q := by
  intro l
  induction l with
  | nil => simp
  | cons x xs ih =>
    by_cases hp : p x = true <;> by_cases hq : q x = true <;>
      simp [List.filter_cons, List.countP_cons, hp, hq] <;> omega

/-! ## Claim theorems -/

/-- **C3**: `assess_risk` returns quarantine = true iff the match list
contains a HIGH-confidence match, or no HIGH match and at least
`MEDIUM_THRESHOLD` (default 3) MEDIUM-confidence matches; with no HIGH
matches, two MEDIUM matches do not quarantine; and in either quarantine
case the reason string names the distinct triggering pattern names and
the match count. -/
theorem C3_assess_risk_policy (ms : List PiiMatch) :
    ((assess_risk ms).1 = true ↔
      (ms.filter (fun m => m.confidence == "HIGH")) ≠ [] ∨
        MEDIUM_THRESHOLD ≤ (ms.filter (fun m => m.confidence == "MEDIUM")).length) ∧
    (ms.filter (fun m => m.confidence == "HIGH") = [] →
      ((assess_risk ms).1 = true ↔
        3 ≤ (ms.filter (fun m => m.confidence == "MEDIUM")).length)) ∧
    (ms.filter (fun m => m.confidence == "HIGH") = [] →
      (ms.filter (fun m => m.confidence == "MEDIUM")).length = 2 →
      (assess_risk ms).1 = false) ∧
    (ms.filter (fun m => m.confidence == "HIGH") ≠ [] →
      ∃ names : List String,
        names.Perm ((ms.filter (fun m => m.confidence == "HIGH")).map
          (·.pattern_name)).dedup ∧
        (assess_risk ms).2 = "HIGH-confidence PII detected: " ++
          String.intercalate ", " names ++ " (" ++
          toString (ms.filter (fun m => m.confidence == "HIGH")).length ++
          " instance(s))") ∧
    (ms.filter (fun m => m.confidence == "HIGH") = [] →
      3 ≤ (ms.filter (fun m => m.confidence == "MEDIUM")).length →
      ∃ names : List String,
        names.Perm ((ms.filter (fun m => m.confidence == "MEDIUM")).map
          (·.pattern_name)).dedup ∧
        (assess_risk ms).2 =
          toString (ms.filter (fun m => m.confidence == "MEDIUM")).length ++
          " MEDIUM-confidence pattern(s) detected (" ++
          String.intercalate ", " names ++ "), at or above threshold of " ++
          toString MEDIUM_THRESHOLD ++ ".") := by
  by_cases hhigh : ms.filter (fun m => m.confidence == "HIGH") = []
  · have hempty : (ms.filter (fun m => m.confidence == "HIGH")).isEmpty = true := by
      simp [hhigh]
    by_cases hmed : MEDIUM_THRESHOLD ≤ (ms.filter (fun m => m.confidence == "MEDIUM")).length
    · refine ⟨?_, ?_, ?_, ?_, ?_⟩
      · simp [assess_risk, hempty, hmed, hhigh]
      · intro _
        simp [assess_risk, hempty, hmed]
        exact hmed
      · intro _ hlen
        simp [MEDIUM_THRESHOLD] at hmed
        omega
      · intro h; exact absurd hhigh h
      · intro _ _
        refine ⟨sortStrings ((ms.filter (fun m => m.confidence == "MEDIUM")).map
          (·.pattern_name)).dedup, sortStrings_perm _, ?_⟩
        simp [assess_risk, hempty, hmed]
    · refine ⟨?_, ?_, ?_, ?_, ?_⟩
      · simp [assess_risk, hempty, hmed, hhigh]
      · intro _
        simp [assess_risk, hempty, hmed]
        simpa [MEDIUM_THRESHOLD] using hmed
      · intro _ _
        simp [assess_risk, hempty, hmed]
      · intro h; exact absurd hhigh h
      · intro _ h
        exact absurd h (by simpa [MEDIUM_THRESHOLD] using hmed)
  · have hempty : (ms.filter (fun m => m.confidence == "HIGH")).isEmpty = false := by
      simpa [List.isEmpty_iff] using hhigh
    refine ⟨?_, ?_, ?_, ?_, ?_⟩
    · simp [assess_risk, hempty, hhigh]
    · intro h; exact absurd h hhigh
    · intro h; exact absurd h hhigh
    · intro _
      refine ⟨sortStrings ((ms.filter (fun m => m.confidence == "HIGH")).map
        (·.pattern_name)).dedup, sortStrings_perm _, ?_⟩
      simp [assess_risk, hempty]
    · intro h; exact absurd h hhigh

/-- Concrete match lists for the C3 witness: one HIGH SSN match, and a
separate list of exactly two MEDIUM matches. -/
def C3msHigh : List PiiMatch :=
  [⟨"SSN", "HIGH", "123-45-6789", 0, 11⟩,
   ⟨"EMAIL_ADDRESS", "MEDIUM", "a@b.co", 20, 26⟩]

def C3msMed2 : List PiiMatch :=
  [⟨"PHONE_NUMBER", "MEDIUM", "217-555-0100", 0, 12⟩,
   ⟨"EMAIL_ADDRESS", "MEDIUM", "a@b.co", 20, 26⟩]

/-- Witness for C3: the HIGH list quarantines with a reason naming its
patterns; the two-MEDIUM list does not quarantine. -/
theorem C3_assess_risk_policy_witness :
    (assess_risk C3msHigh).1 = true ∧
    (assess_risk C3msMed2).1 = false ∧
    (∃ names : List String,
      names.Perm ((C3msHigh.filter (fun m => m.confidence == "HIGH")).map
        (·.pattern_name)).dedup ∧
      (assess_risk C3msHigh).2 = "HIGH-confidence PII detected: " ++
        String.intercalate ", " names ++ " (" ++
        toString (C3msHigh.filter (fun m => m.confidence == "HIGH")).length ++
        " instance(s))") :=
  ⟨(C3_assess_risk_policy C3msHigh).1.mpr (Or.inl (by decide)),
   (C3_assess_risk_policy C3msMed2).2.2.1 (by decide) (by decide),
   (C3_assess_risk_policy C3msHigh).2.2.2.1 (by decide)⟩

/-- **C9**: `scan_text` returns exactly the matches of every registry
detector, each tagged with the detector's name, confidence, span and
matched text, in a list sorted by start position whose equal-start
elements keep their registry (concatenation) order. -/
theorem C9_scan_text_sorted_stable
    (finditer : Nat → String → List RawMatch) (text : String) :
    (scan_text finditer text).Perm (collectMatches finditer text) ∧
    (scan_text finditer text).Pairwise (fun a b => a.start ≤ b.start) ∧
    (∀ s : Nat, (scan_text finditer text).filter (fun m => m.start == s) =
      (collectMatches finditer text).filter (fun m => m.start == s)) ∧
    (∀ i, (hi : i < PATTERNS.length) → ∀ m ∈ finditer i text,
      ({ pattern_name := (PATTERNS.get ⟨i, hi⟩).1,
         confidence := (PATTERNS.get ⟨i, hi⟩).2,
         matched_text := m.text, start := m.start, stop := m.stop } : PiiMatch)
        ∈ scan_text finditer text) := by
  refine ⟨sortByStart_perm _, sortByStart_pairwise _, fun s => sortByStart_filter s _, ?_⟩
  intro i hi m hm
  unfold scan_text
  rw [(sortByStart_perm _).mem_iff]
  unfold collectMatches
  rw [List.mem_flatten]
  refine ⟨tagMatches (PATTERNS.get ⟨i, hi⟩) (finditer i text), ?_, ?_⟩
  · rw [List.mem_map]
    refine ⟨(i, PATTERNS.get ⟨i, hi⟩), ?_, rfl⟩
    have hlen : i < PATTERNS.enum.length := by simpa using hi
    have : PATTERNS.enum.get ⟨i, hlen⟩ = (i, PATTERNS.get ⟨i, hi⟩) := by
      simp [List.getElem_enum]
    rw [← this]
    exact List.get_mem _ i hlen
  · rw [tagMatches, List.mem_map]
    exact ⟨m, hm, rfl⟩

/-- Concrete registry output for the C9 witness: the SSN detector (index
0) reports one raw match, every other detector none. -/
def C9finditer : Nat → String → List RawMatch :=
  fun i _ => if i = 0 then [⟨10, 21, "123-45-6789"⟩] else []

/-- Witness for C9: the tagged SSN match is in the scan result. -/
theorem C9_scan_text_sorted_stable_witness :
    ({ pattern_name := "SSN", confidence := "HIGH",
       matched_text := "123-45-6789", start := 10, stop := 21 } : PiiMatch)
      ∈ scan_text C9finditer "x" :=
  (C9_scan_text_sorted_stable C9finditer "x").2.2.2 0 (by decide)
    ⟨10, 21, "123-45-6789"⟩ (by decide)

/-- The two counting invariants of the sentence loop: cited plus naked
claims make up the claim records, and claim records plus non-claims make
up all sentences. -/
theorem densityGo_spec (kS : List String) : ∀ l : List String,
    (densityGo kS l).2.2.1 + (densityGo kS l).2.1.length =
      (densityGo kS l).1.length ∧
    (densityGo kS l).1.length + (densityGo kS l).2.2.2 = l.length := by
  intro l
  induction l with
  | nil => simp [densityGo]
  | cons s rest ih =>
    simp only [densityGo]
    by_cases hc : (is_claim_sentence s).1
    · by_cases hcite : sentence_has_sha256_citation s kS
      · simp [hc, hcite]; omega
      · simp [hc, hcite]; omega
    · simp [hc]; omega

/-- The density field of `compute_citation_density` as a function of the
count fields. -/
theorem compute_citation_density_density_eq (text : String) (kS : List String) :
    (compute_citation_density text kS).citation_density =
      if 0 < (compute_citation_density text kS).factual_count
      then some (((compute_citation_density text kS).cited_count : ℚ) /
        (compute_citation_density text kS).factual_count)
      else none := by
  simp [compute_citation_density]

/-- **C10**: the sentence classification of `compute_citation_density`
partitions: claim sentences plus non-claim sentences equal all sentences,
cited claims plus naked claims equal all claim sentences, and the density
is `None` exactly for zero claim sentences, otherwise
`cited / factual`. -/
theorem C10_density_partition (text : String) (kS : List String) :
    (compute_citation_density text kS).factual_count +
      (compute_citation_density text kS).non_factual_count =
      (compute_citation_density text kS).total_sentences ∧
    (compute_citation_density text kS).cited_count +
      (compute_citation_density text kS).naked_claims.length =
      (compute_citation_density text kS).factual_count ∧
    ((compute_citation_density text kS).citation_density = none ↔
      (compute_citation_density text kS).factual_count = 0) ∧
    ((compute_citation_density text kS).factual_count ≠ 0 →
      (compute_citation_density text kS).citation_density =
        some (((compute_citation_density text kS).cited_count : ℚ) /
          (compute_citation_density text kS).factual_count)) := by
  have h := densityGo_spec kS (splitSentences text)
  refine ⟨?_, ?_, ?_, ?_⟩
  · simpa [compute_citation_density] using h.2
  · simpa [compute_citation_density] using h.1
  · rw [compute_citation_density_density_eq]
    split_ifs with h0
    · simp; omega
    · simp; omega
  · intro hne
    rw [compute_citation_density_density_eq, if_pos (by omega)]

/-- Witness for C10: a one-sentence response with one (uncited) claim
sentence. -/
theorem C10_density_partition_witness :
    (compute_citation_density "Total was 5 units." []).factual_count ≠ 0 ∧
    (compute_citation_density "Total was 5 units." []).citation_density =
      some (((compute_citation_density "Total was 5 units." []).cited_count : ℚ) /
        (compute_citation_density "Total was 5 units." []).factual_count) :=
  ⟨by decide, (C10_density_partition "Total was 5 units." []).2.2.2 (by decide)⟩

/-- **C2**: the density check passes iff the density is undefined (no
claim sentences) or at least the threshold; the default thresholds are
0.70 (research) and 1.00 (compliance); and a response with 6 cited and 1
uncited claim sentences (density 6/7) fails the compliance default and
passes the research default. -/
theorem C2_density_threshold_policy (text : String) (kS : List String) (θ : ℚ) :
    (density_pass (compute_citation_density text kS).citation_density θ = true ↔
      ((compute_citation_density text kS).factual_count = 0 ∨
        θ ≤ ((compute_citation_density text kS).cited_count : ℚ) /
          (compute_citation_density text kS).factual_count)) ∧
    (default_threshold false = 7 / 10 ∧ default_threshold true = 1) ∧
    ((compute_citation_density text kS).cited_count = 6 →
      (compute_citation_density text kS).factual_count = 7 →
      (density_pass (compute_citation_density text kS).citation_density
          (default_threshold true) = false ∧
        density_pass (compute_citation_density text kS).citation_density
          (default_threshold false) = true)) := by
  refine ⟨?_, ⟨?_, ?_⟩, ?_⟩
  · rw [compute_citation_density_density_eq]
    split_ifs with h0
    · have hne : ¬ (compute_citation_density text kS).factual_count = 0 := by omega
      simp [density_pass, hne]
    · have heq : (compute_citation_density text kS).factual_count = 0 := by omega
      simp [density_pass, heq]
  · norm_num [default_threshold, RESEARCH_THRESHOLD]
  · norm_num [default_threshold, COMPLIANCE_THRESHOLD]
  · intro h6 h7
    rw [compute_citation_density_density_eq, if_pos (by omega), h6, h7]
    constructor
    · simp only [density_pass, decide_eq_false_iff_not, default_threshold,
        COMPLIANCE_THRESHOLD]
      norm_num
    · simp only [density_pass, decide_eq_true_eq, default_threshold,
        RESEARCH_THRESHOLD]
      norm_num

/-- A manifest hash and a seven-sentence response for the C2 witness: six
claim sentences (each contains a number) citing the hash, one uncited. -/
def C2hash : String :=
  "0123456789abcdef0123456789abcdef0123456789abcdef0123456789abcdef"

def C2response : String :=
  "Has 2 units " ++ C2hash ++ ". Has 2 units " ++ C2hash ++ ". Has 2 units " ++
  C2hash ++ ". Has 2 units " ++ C2hash ++ ". Has 2 units " ++ C2hash ++
  ". Has 2 units " ++ C2hash ++ ". Has 2 units."

/-- Witness for C2: the concrete response has 6 cited and 7 claim
sentences, fails the compliance default and passes the research
default. -/
theorem C2_density_threshold_policy_witness :
    ((compute_citation_density C2response [C2hash]).cited_count = 6 ∧
      (compute_citation_density C2response [C2hash]).factual_count = 7) ∧
    (density_pass (compute_citation_density C2response [C2hash]).citation_density
        (default_threshold true) = false ∧
      density_pass (compute_citation_density C2response [C2hash]).citation_density
        (default_threshold false) = true) :=
  ⟨⟨by decide, by decide⟩,
   (C2_density_threshold_policy C2response [C2hash] 0).2.2 (by decide) (by decide)⟩

/-- Filtering a homogeneous citation list by its own kind keeps it. -/
theorem citMap_filter_same (ct st : String) (det : Option String) :
    ∀ l : List String,
    ((l.map (fun v => (⟨ct, v, st, det⟩ : Citation))).filter
      (fun c => c.ctype == ct)) = l.map (fun v => (⟨ct, v, st, det⟩ : Citation)) := by
  intro l
  induction l with
  | nil => simp
  | cons x xs ih => simp_all [List.filter_cons]

/-- Filtering a homogeneous citation list by a different kind empties it. -/
theorem citMap_filter_other (ct st : String) (det : Option String) (ct' : String)
    (h : ct ≠ ct') : ∀ l : List String,
    ((l.map (fun v => (⟨ct, v, st, det⟩ : Citation))).filter
      (fun c => c.ctype == ct')) = [] := by
  intro l
  induction l with
  | nil => simp
  | cons x xs ih => simp_all [List.filter_cons]

/-- The values of a homogeneous citation list are its source tokens. -/
theorem citMap_values (ct st : String) (det : Option String) :
    ∀ l : List String,
    ((l.map (fun v => (⟨ct, v, st, det⟩ : Citation))).map (·.value)) = l := by
  intro l
  induction l with
  | nil => simp
  | cons x xs ih => simp_all

/-- **C8**: `verify_citations` classifies every deduplicated extracted
hash and filename by exact set membership (`VERIFIED` iff present in the
respective manifest set), each extracted citation lands in exactly one of
the two result lists exactly once, and each kind is iterated in sorted
order. -/
theorem C8_verify_citations_classification (text : String)
    (mg : List (List (Option String))) (kS kF : List String) :
    (∀ c ∈ (verify_citations text mg kS kF).1,
      c.status = "VERIFIED" ∧
      ((c.ctype = "sha256" ∧ c.value ∈ extract_sha256s text ∧
          kS.contains c.value = true) ∨
       (c.ctype = "filename" ∧ c.value ∈ extract_filenames mg ∧
          kF.contains c.value = true))) ∧
    (∀ c ∈ (verify_citations text mg kS kF).2,
      c.status = "UNVERIFIED" ∧
      ((c.ctype = "sha256" ∧ c.value ∈ extract_sha256s text ∧
          kS.contains c.value = false) ∨
       (c.ctype = "filename" ∧ c.value ∈ extract_filenames mg ∧
          kF.contains c.value = false))) ∧
    (∀ h ∈ extract_sha256s text,
      ((verify_citations text mg kS kF).1 ++
        (verify_citations text mg kS kF).2).countP
        (fun c => c.ctype == "sha256" && c.value == h) = 1) ∧
    (∀ n ∈ extract_filenames mg,
      ((verify_citations text mg kS kF).1 ++
        (verify_citations text mg kS kF).2).countP
        (fun c => c.ctype == "filename" && c.value == n) = 1) ∧
    (∀ h ∈ extract_sha256s text,
      ((⟨"sha256", h, "VERIFIED", none⟩ : Citation) ∈
          (verify_citations text mg kS kF).1 ↔ kS.contains h = true)) ∧
    (((((verify_citations text mg kS kF).1.filter
        (fun c => c.ctype == "sha256")).map (·.value)).Pairwise
        (fun a b => strLe a b = true)) ∧
     ((((verify_citations text mg kS kF).1.filter
        (fun c => c.ctype == "filename")).map (·.value)).Pairwise
        (fun a b => strLe a b = true)) ∧
     ((((verify_citations text mg kS kF).2.filter
        (fun c => c.ctype == "sha256")).map (·.value)).Pairwise
        (fun a b => strLe a b = true)) ∧
     ((((verify_citations text mg kS kF).2.filter
        (fun c => c.ctype == "filename")).map (·.value)).Pairwise
        (fun a b => strLe a b = true))) := by
  have hv : (verify_citations text mg kS kF).1 =
      (((sortStrings (extract_sha256s text)).filter (kS.contains ·)).map fun h =>
        ⟨"sha256", h, "VERIFIED", none⟩) ++
      (((sortStrings (extract_filenames mg)).filter (kF.contains ·)).map fun n =>
        ⟨"filename", n, "VERIFIED", none⟩) := rfl
  have hu : (verify_citations text mg kS kF).2 =
      (((sortStrings (extract_sha256s text)).filter
          (fun h => !(kS.contains h))).map fun h =>
        ⟨"sha256", h, "UNVERIFIED",
          some "SHA256 not found in manifest. Never ingested or fabricated."⟩) ++
      (((sortStrings (extract_filenames mg)).filter
          (fun n => !(kF.contains n))).map fun n =>
        ⟨"filename", n, "UNVERIFIED",
          some "Filename not found in manifest. Never ingested or fabricated."⟩) := rfl
  have hSperm : (sortStrings (extract_sha256s text)).Perm (extract_sha256s text) :=
    sortStrings_perm _
  have hFperm : (sortStrings (extract_filenames mg)).Perm (extract_filenames mg) :=
    sortStrings_perm _
  have hSnodup : (sortStrings (extract_sha256s text)).Nodup := by
    refine hSperm.symm.nodup ?_
    unfold extract_sha256s
    exact List.nodup_dedup _
  have hFnodup : (sortStrings (extract_filenames mg)).Nodup := by
    refine hFperm.symm.nodup ?_
    unfold extract_filenames
    exact List.nodup_dedup _
  have hSsorted := sortStrings_sorted (extract_sha256s text)
  have hFsorted := sortStrings_sorted (extract_filenames mg)
  refine ⟨?_, ?_, ?_, ?_, ?_, ?_, ?_, ?_, ?_⟩
  · intro c hc
    rw [hv] at hc
    rcases List.mem_append.mp hc with hA | hB
    · obtain ⟨h, hmem, rfl⟩ := List.mem_map.mp hA
      obtain ⟨hin, hp⟩ := List.mem_filter.mp hmem
      exact ⟨rfl, Or.inl ⟨rfl, hSperm.mem_iff.mp hin, hp⟩⟩
    · obtain ⟨n, hmem, rfl⟩ := List.mem_map.mp hB
      obtain ⟨hin, hp⟩ := List.mem_filter.mp hmem
      exact ⟨rfl, Or.inr ⟨rfl, hFperm.mem_iff.mp hin, hp⟩⟩
  · intro c hc
    rw [hu] at hc
    rcases List.mem_append.mp hc with hA | hB
    · obtain ⟨h, hmem, rfl⟩ := List.mem_map.mp hA
      obtain ⟨hin, hp⟩ := List.mem_filter.mp hmem
      exact ⟨rfl, Or.inl ⟨rfl, hSperm.mem_iff.mp hin, by simpa using hp⟩⟩
    · obtain ⟨n, hmem, rfl⟩ := List.mem_map.mp hB
      obtain ⟨hin, hp⟩ := List.mem_filter.mp hmem
      exact ⟨rfl, Or.inr ⟨rfl, hFperm.mem_iff.mp hin, by simpa using hp⟩⟩
  · intro h hmem
    rw [hv, hu, List.countP_append, List.countP_append, List.countP_append,
      List.countP_map, List.countP_map, List.countP_map, List.countP_map]
    have eA : ((fun c : Citation => c.ctype == "sha256" && c.value == h) ∘
        (fun v => ⟨"sha256", v, "VERIFIED", none⟩)) = fun v => v == h := by
      funext v; simp [Function.comp]
    have eC : ((fun c : Citation => c.ctype == "sha256" && c.value == h) ∘
        (fun v => ⟨"sha256", v, "UNVERIFIED",
          some "SHA256 not found in manifest. Never ingested or fabricated."⟩)) =
        fun v => v == h := by
      funext v; simp [Function.comp]
    have eB : ((fun c : Citation => c.ctype == "sha256" && c.value == h) ∘
        (fun v => ⟨"filename", v, "VERIFIED", none⟩)) = fun _ => false := by
      funext v; simp [Function.comp]
    have eD : ((fun c : Citation => c.ctype == "sha256" && c.value == h) ∘
        (fun v => ⟨"filename", v, "UNVERIFIED",
          some "Filename not found in manifest. Never ingested or fabricated."⟩)) =
        fun _ => false := by
      funext v; simp [Function.comp]
    rw [eA, eB, eC, eD]
    have hsplit := countP_filter_split (fun x => kS.contains x) (fun v => v == h)
      (sortStrings (extract_sha256s text))
    have hone : (sortStrings (extract_sha256s text)).countP (fun v => v == h) = 1 := by
      rw [← List.count_eq_countP]
      exact List.count_eq_one_of_mem hSnodup (hSperm.mem_iff.mpr hmem)
    have z1 : List.countP (fun _ => false)
        (List.filter (fun x => kF.contains x) (sortStrings (extract_filenames mg))) = 0 := by
      simp
    have z2 : List.countP (fun _ => false)
        (List.filter (fun n => !kF.contains n) (sortStrings (extract_filenames mg))) = 0 := by
      simp
    omega
  · intro n hmem
    rw [hv, hu, List.countP_append, List.countP_append, List.countP_append,
      List.countP_map, List.countP_map, List.countP_map, List.countP_map]
    have eA : ((fun c : Citation => c.ctype == "filename" && c.value == n) ∘
        (fun v => ⟨"filename", v, "VERIFIED", none⟩)) = fun v => v == n := by
      funext v; simp [Function.comp]
    have eC : ((fun c : Citation => c.ctype == "filename" && c.value == n) ∘
        (fun v => ⟨"filename", v, "UNVERIFIED",
          some "Filename not found in manifest. Never ingested or fabricated."⟩)) =
        fun v => v == n := by
      funext v; simp [Function.comp]
    have eB : ((fun c : Citation => c.ctype == "filename" && c.value == n) ∘
        (fun v => ⟨"sha256", v, "VERIFIED", none⟩)) = fun _ => false := by
      funext v; simp [Function.comp]
    have eD : ((fun c : Citation => c.ctype == "filename" && c.value == n) ∘
        (fun v => ⟨"sha256", v, "UNVERIFIED",
          some "SHA256 not found in manifest. Never ingested or fabricated."⟩)) =
        fun _ => false := by
      funext v; simp [Function.comp]
    rw [eA, eB, eC, eD]
    have hsplit := countP_filter_split (fun x => kF.contains x) (fun v => v == n)
      (sortStrings (extract_filenames mg))
    have hone : (sortStrings (extract_filenames mg)).countP (fun v => v == n) = 1 := by
      rw [← List.count_eq_countP]
      exact List.count_eq_one_of_mem hFnodup (hFperm.mem_iff.mpr hmem)
    have z1 : List.countP (fun _ => false)
        (List.filter (fun x => kS.contains x) (sortStrings (extract_sha256s text))) = 0 := by
      simp
    have z2 : List.countP (fun _ => false)
        (List.filter (fun h => !kS.contains h) (sortStrings (extract_sha256s text))) = 0 := by
      simp
    omega
  · intro h hmem
    constructor
    · intro hin
      rw [hv] at hin
      rcases List.mem_append.mp hin with hA | hB
      · obtain ⟨h', hmem', heq⟩ := List.mem_map.mp hA
        obtain ⟨_, hp⟩ := List.mem_filter.mp hmem'
        have : h' = h := by simpa [Citation.mk.injEq] using heq
        rw [← this]; exact hp
      · obtain ⟨n, hmem', heq⟩ := List.mem_map.mp hB
        simp [Citation.mk.injEq] at heq
    · intro hcont
      rw [hv]
      refine List.mem_append.mpr (Or.inl (List.mem_map.mpr ⟨h, ?_, rfl⟩))
      exact List.mem_filter.mpr ⟨hSperm.mem_iff.mpr hmem, hcont⟩
  · rw [hv, List.filter_append, citMap_filter_same,
      citMap_filter_other _ _ _ _ (by decide), List.append_nil, citMap_values]
    exact List.Pairwise.filter _ hSsorted
  · rw [hv, List.filter_append, citMap_filter_same,
      citMap_filter_other _ _ _ _ (by decide), List.nil_append, citMap_values]
    exact List.Pairwise.filter _ hFsorted
  · rw [hu, List.filter_append, citMap_filter_same,
      citMap_filter_other _ _ _ _ (by decide), List.append_nil, citMap_values]
    exact List.Pairwise.filter _ hSsorted
  · rw [hu, List.filter_append, citMap_filter_same,
      citMap_filter_other _ _ _ _ (by decide), List.nil_append, citMap_values]
    exact List.Pairwise.filter _ hFsorted

/-- A response repeating one unknown hash twice and citing one known hash
once, for the C8 witness. -/
def C8response : String :=
  "See " ++ C2hash ++ " and again " ++ C2hash ++ " here."

/-- Witness for C8: the twice-cited hash is counted exactly once, and is
VERIFIED since it is in the manifest set. -/
theorem C8_verify_citations_classification_witness :
    (((verify_citations C8response [] [C2hash] []).1 ++
      (verify_citations C8response [] [C2hash] []).2).countP
      (fun c => c.ctype == "sha256" && c.value == C2hash) = 1) ∧
    ((⟨"sha256", C2hash, "VERIFIED", none⟩ : Citation) ∈
      (verify_citations C8response [] [C2hash] []).1) :=
  ⟨(C8_verify_citations_classification C8response [] [C2hash] []).2.2.1 C2hash
     (by decide),
   ((C8_verify_citations_classification C8response [] [C2hash] []).2.2.2.2.1 C2hash
     (by decide)).mpr (by decide)⟩

/-- A draft-mode run whose computed result is FAIL, for the C1
counterexample: the response is one unknown 64-hex token, the manifest is
empty, and the mode is compliance, so `citations_pass` is false and
`overall_pass` is false. -/
def C1response : String := String.mk (List.replicate 64 'a')

/-- **C1 counterexample**: in this draft-mode run the computed result is
FAIL (`overall_pass = false`), yet the appended audit row records PASS —
`main` logs `overall_pass or draft` (line 603), not the computed result —
so the recorded status does not equal the computed pass/fail as the claim
states. -/
theorem C1_counterexample :
    (run_validate C1response [] [] [] true true 1 "NO_GIT_COMMIT").overall_pass
        = false ∧
    (run_validate C1response [] [] [] true true 1 "NO_GIT_COMMIT").audit_row.status
        = "PASS" ∧
    (run_validate C1response [] [] [] true true 1 "NO_GIT_COMMIT").audit_row.status
        ≠ (if (run_validate C1response [] [] [] true true 1
            "NO_GIT_COMMIT").overall_pass then "PASS" else "FAIL") ∧
    (run_validate C1response [] [] [] true true 1 "NO_GIT_COMMIT").exit_code = 0 := by
  refine ⟨by decide, by decide, ?_, by decide⟩
  intro h
  have h1 : (run_validate C1response [] [] [] true true 1
      "NO_GIT_COMMIT").overall_pass = false := by decide
  rw [h1] at h
  have h2 : (run_validate C1response [] [] [] true true 1
      "NO_GIT_COMMIT").audit_row.status = "PASS" := by decide
  rw [h2] at h
  simp at h

/-- **C1 (amended)**: every validation run's audit row records PASS iff
the computed result passed or the run is a draft; draft runs always exit
0 and are always logged PASS (the computed FAIL of a draft run is not
preserved in the audit row). -/
theorem C1_draft_audit_status (text : String) (mg : List (List (Option String)))
    (kS kF : List String) (compliance draft : Bool) (θ : ℚ) (commit : String) :
    ((run_validate text mg kS kF compliance draft θ commit).audit_row.status
        = "PASS" ↔
      ((run_validate text mg kS kF compliance draft θ commit).overall_pass = true ∨
        draft = true)) ∧
    (draft = true →
      (run_validate text mg kS kF compliance draft θ commit).exit_code = 0 ∧
      (run_validate text mg kS kF compliance draft θ commit).audit_row.status
        = "PASS") := by
  simp only [run_validate, append_audit_log]
  cases hcp : citations_pass (verify_citations text mg kS kF).2 compliance <;>
    cases hdp : density_pass (compute_citation_density text kS).citation_density θ <;>
    cases draft <;> simp

/-- Witness for C1 (amended): a concrete draft run exits 0 and is logged
PASS. -/
theorem C1_draft_audit_status_witness :
    (run_validate "x" [] [] [] false true RESEARCH_THRESHOLD "c").exit_code = 0 ∧
    (run_validate "x" [] [] [] false true RESEARCH_THRESHOLD "c").audit_row.status
      = "PASS" :=
  (C1_draft_audit_status "x" [] [] [] false true RESEARCH_THRESHOLD "c").2 rfl

/-- From a consistent state the append transaction completes and leaves a
lockfile recording the hash of the manifest as written. -/
theorem ingest_append_ok (hashM : List ManifestEntry → String) (mp : String)
    (s : IngestState) (e : ManifestEntry) (h : consistentState hashM s) :
    ∃ s', ingest_append hashM mp s e = Except.ok s' ∧ lockMatches hashM s' := by
  unfold ingest_append
  have hgate : (match s.manifest with
      | some m => check_lockfile_integrity s.lock (hashM m)
      | none => Except.ok ()) = Except.ok () := by
    cases hm : s.manifest with
    | none => rfl
    | some m =>
      rcases h with h1 | h2 | h3
      · rw [hm] at h1; cases h1
      · simp [h2, check_lockfile_integrity]
      · obtain ⟨d, hd, hval⟩ := h3
        rw [hm] at hval
        simp only [Option.getD] at hval
        simp [check_lockfile_integrity, hd, hval]
  rw [hgate]
  exact ⟨_, rfl, ⟨_, rfl, by simp [write_lockfile]⟩⟩

theorem lockMatches_consistent {hashM : List ManifestEntry → String}
    {s : IngestState} (h : lockMatches hashM s) : consistentState hashM s :=
  Or.inr (Or.inr h)

/-- Sequential appends from a consistent state always complete, and after
any non-empty run the lockfile matches the manifest as written. -/
theorem ingest_seq_ok (hashM : List ManifestEntry → String) (mp : String) :
    ∀ (es : List ManifestEntry) (s : IngestState), consistentState hashM s →
    ∃ s', ingest_seq hashM mp s es = Except.ok s' ∧ consistentState hashM s' ∧
      (es ≠ [] → lockMatches hashM s') := by
  intro es
  induction es with
  | nil => intro s h; exact ⟨s, rfl, h, by simp⟩
  | cons e es ih =>
    intro s h
    obtain ⟨s1, h1, hm1⟩ := ingest_append_ok hashM mp s e h
    obtain ⟨s2, h2, hc2, hm2⟩ := ih s1 (lockMatches_consistent hm1)
    refine ⟨s2, ?_, hc2, fun _ => ?_⟩
    · simp [ingest_seq, h1, h2]
    · cases es with
      | nil =>
        simp only [ingest_seq] at h2
        cases h2
        exact hm1
      | cons e2 es2 => exact hm2 (by simp)

/-- **C4**: starting from any consistent manifest/lockfile state, every
prefix of a sequence of append transactions completes, and after each
completed append the lockfile's recorded `manifest_sha256` equals the
content hash of the manifest as written, so the pair stays mutually
consistent for every N. -/
theorem C4_sequential_append_consistency (hashM : List ManifestEntry → String)
    (mp : String) (s : IngestState) (es : List ManifestEntry)
    (h : consistentState hashM s) :
    ∀ k : Nat, ∃ s', ingest_seq hashM mp s (es.take k) = Except.ok s' ∧
      consistentState hashM s' ∧ (es.take k ≠ [] → lockMatches hashM s') :=
  fun k => ingest_seq_ok hashM mp (es.take k) s h

/-- Concrete entry and hash function for the C4 witness. -/
def C4entry : ManifestEntry :=
  ⟨"report.pdf", "c0ffee", "2026-01-01T00:00:00+00:00", "data/raw/report.pdf",
   "NO_GIT_COMMIT"⟩

def C4hash : List ManifestEntry → String :=
  fun m => String.mk (List.replicate m.length 'h')

/-- Witness for C4: two sequential appends from the first-run state. -/
theorem C4_sequential_append_consistency_witness :
    ∃ s', ingest_seq C4hash "data/manifest.json"
        ⟨none, LockRead.missing⟩ ([C4entry, C4entry].take 2) = Except.ok s' ∧
      consistentState C4hash s' ∧
      ([C4entry, C4entry].take 2 ≠ [] → lockMatches C4hash s') :=
  C4_sequential_append_consistency C4hash "data/manifest.json"
    ⟨none, LockRead.missing⟩ [C4entry, C4entry] (Or.inl rfl) 2

/-- **C5**: the pre-mutation consistency check passes when no lockfile
exists, fails as an IntegrityBreach when the lockfile is unreadable or
corrupt, fails as an IntegrityBreach naming the recorded (expected) and
recomputed (actual) hashes when they differ, and a breach in the append
transaction is exactly a failure of this check on the untouched
pre-state. -/
theorem C5_lockfile_consistency_check :
    (∀ h : String, check_lockfile_integrity LockRead.missing h = Except.ok ()) ∧
    (∀ exc h : String, check_lockfile_integrity (LockRead.corrupt exc) h =
      Except.error (IntegrityBreach.corruptLock exc)) ∧
    (∀ (d : LockData) (h : String), d.manifest_sha256.getD "" ≠ h →
      check_lockfile_integrity (LockRead.good d) h =
        Except.error (IntegrityBreach.hashMismatch (d.manifest_sha256.getD "") h)) ∧
    (∀ (d : LockData) (h : String), d.manifest_sha256.getD "" = h →
      check_lockfile_integrity (LockRead.good d) h = Except.ok ()) ∧
    (∀ (hashM : List ManifestEntry → String) (mp : String) (s : IngestState)
      (e : ManifestEntry) (b : IntegrityBreach),
      ingest_append hashM mp s e = Except.error b →
      ∃ m, s.manifest = some m ∧
        check_lockfile_integrity s.lock (hashM m) = Except.error b) := by
  refine ⟨fun h => rfl, fun exc h => rfl, ?_, ?_, ?_⟩
  · intro d h hne
    simp [check_lockfile_integrity, hne]
  · intro d h he
    simp [check_lockfile_integrity, he]
  · intro hashM mp s e b hb
    simp only [ingest_append] at hb
    cases hg : (match s.manifest with
      | some m => check_lockfile_integrity s.lock (hashM m)
      | none => Except.ok ()) with
    | ok u =>
      rw [hg] at hb
      simp at hb
    | error b2 =>
      rw [hg] at hb
      simp only [Except.error.injEq] at hb
      cases hm : s.manifest with
      | none =>
        rw [hm] at hg
        simp at hg
      | some m =>
        rw [hm] at hg
        refine ⟨m, rfl, ?_⟩
        have hg' : check_lockfile_integrity s.lock (hashM m) = Except.error b2 := hg
        rw [hg', hb]

/-- Concrete lockfile contents for the C5 witness: the recorded hash
differs from the recomputed one. -/
def C5lock : LockData := ⟨"ingest.py", "data/manifest.json", some "aaa"⟩

/-- Witness for C5: the mismatch case fires with both hashes named. -/
theorem C5_lockfile_consistency_check_witness :
    check_lockfile_integrity (LockRead.good C5lock) "bbb" =
      Except.error (IntegrityBreach.hashMismatch "aaa" "bbb") :=
  C5_lockfile_consistency_check.2.2.1 C5lock "bbb" (by decide)

/-- **C6 counterexample**: the claim "the gate aborts on state UNSIGNED
iff the mode is compliance" is false: with a signature file present but
GPG unavailable (`gpgVerify = none`), the state is classified UNSIGNED
yet the run proceeds even in compliance mode (lines 118–125 of
`parse.py`). -/
theorem C6_counterexample :
    ¬ (∀ (sigExists : Bool) (gpgVerify : Option Bool) (compliance : Bool),
      ((∃ msg, check_manifest_signature sigExists gpgVerify compliance =
          Except.error msg) ↔
        (signature_state sigExists gpgVerify = "INVALID" ∨
          (signature_state sigExists gpgVerify = "UNSIGNED" ∧
            compliance = true)))) := by
  intro hclaim
  obtain ⟨msg, hmsg⟩ := (hclaim true none true).mpr (Or.inr ⟨rfl, rfl⟩)
  simp [check_manifest_signature] at hmsg

/-- **C6 (amended)**: the signature gate aborts iff the state is INVALID
(in both modes), or the signature artifact is missing in compliance mode;
when the gate does not abort it returns the classified state, and the
assembled output is tagged with that state — in particular an UNSIGNED
state arising from GPG being unavailable proceeds in both modes. -/
theorem C6_signature_gate (sigExists : Bool) (gpgVerify : Option Bool)
    (compliance : Bool) :
    ((∃ msg, check_manifest_signature sigExists gpgVerify compliance =
        Except.error msg) ↔
      (signature_state sigExists gpgVerify = "INVALID" ∨
        (sigExists = false ∧ compliance = true))) ∧
    (∀ st, check_manifest_signature sigExists gpgVerify compliance =
      Except.ok st → st = signature_state sigExists gpgVerify) ∧
    (∀ (entry : ManifestEntry) (elements : List Element) (digest st : String),
      (build_output entry elements digest st).provenance.manifest_signature
        = st) := by
  refine ⟨?_, ?_, fun entry elements digest st => rfl⟩
  · cases sigExists <;> rcases gpgVerify with _ | b <;>
      first
      | (cases b <;> cases compliance <;>
          simp [check_manifest_signature, signature_state])
      | (cases compliance <;> simp [check_manifest_signature, signature_state])
  · intro st hst
    cases sigExists <;> rcases gpgVerify with _ | b <;>
      first
      | (cases b <;> cases compliance <;>
          simp_all [check_manifest_signature, signature_state])
      | (cases compliance <;> simp_all [check_manifest_signature, signature_state])

/-- Witness for C6 (amended): an invalid signature aborts in research
mode, and a missing signature in research mode yields state UNSIGNED. -/
theorem C6_signature_gate_witness :
    (∃ msg, check_manifest_signature true (some false) false =
      Except.error msg) ∧
    ("UNSIGNED" = signature_state false none) :=
  ⟨(C6_signature_gate true (some false) false).1.mpr (Or.inl rfl),
   (C6_signature_gate false none false).2.1 "UNSIGNED" rfl⟩

/-- **C7 counterexample**: the claim requires exit code 2 whenever a
required input is missing, uniformly across flows; but the parse flow
exits 1 on a missing manifest (`parse.load_manifest`, line 131), and the
ingest flow exits 1 on a missing target file (`ingest.main`,
line 339). -/
theorem C7_counterexample :
    parse_main_exit true false none false false none "" [] [] = 1 ∧
    ingest_main_exit (fun _ => "h") "data/manifest.json" false
      ⟨none, LockRead.missing⟩ C4entry = 1 ∧
    (1 : Nat) ≠ 2 := by
  refine ⟨rfl, rfl, by decide⟩

/-- The checking part of `validate_output.main` only exits 0 or 1. -/
theorem run_validate_exit_ne_two (text : String) (mg : List (List (Option String)))
    (kS kF : List String) (compliance draft : Bool) (θ : ℚ) (commit : String) :
    (run_validate text mg kS kF compliance draft θ commit).exit_code ≠ 2 := by
  have h : (run_validate text mg kS kF compliance draft θ commit).exit_code =
      if ((citations_pass (verify_citations text mg kS kF).2 compliance &&
          density_pass (compute_citation_density text kS).citation_density θ) ||
        draft) then 0 else 1 := rfl
  rw [h]
  split_ifs <;> omega

/-- **C7 (amended)**: the validate flow exits 2 exactly when the
threshold override is out of range, the given input file is missing, or
the manifest is missing; it otherwise exits 0 or 1 by the checks.  The
parse and ingest flows never exit 2: missing inputs there exit 1, like
gate failures, and success exits 0. -/
theorem C7_exit_codes
    (thr : Option ℚ) (inputGiven inputExists manifestExists : Bool)
    (text : String) (mg : List (List (Option String))) (kS kF : List String)
    (compliance draft : Bool) (commit : String)
    (pFile pSig : Bool) (pGpg : Option Bool) (pCompliance pManifest : Bool)
    (pEntry : Option ManifestEntry) (pDigest : String) (pPii : List PiiMatch)
    (pElems : List Element)
    (hashM : List ManifestEntry → String) (mp : String) (iFile : Bool)
    (s : IngestState) (e : ManifestEntry) :
    (validate_main_exit thr inputGiven inputExists manifestExists text mg kS kF
        compliance draft commit = 2 ↔
      (¬ (0 ≤ thr.getD (default_threshold compliance) ∧
            thr.getD (default_threshold compliance) ≤ 1) ∨
        (inputGiven = true ∧ inputExists = false) ∨ manifestExists = false)) ∧
    (parse_main_exit pFile pSig pGpg pCompliance pManifest pEntry pDigest pPii
        pElems = 0 ∨
      parse_main_exit pFile pSig pGpg pCompliance pManifest pEntry pDigest pPii
        pElems = 1) ∧
    (pFile = false ∨ pManifest = false →
      parse_main_exit pFile pSig pGpg pCompliance pManifest pEntry pDigest pPii
        pElems = 1) ∧
    (ingest_main_exit hashM mp iFile s e = 0 ∨
      ingest_main_exit hashM mp iFile s e = 1) ∧
    (iFile = false → ingest_main_exit hashM mp iFile s e = 1) := by
  refine ⟨?_, ?_, ?_, ?_, ?_⟩
  · unfold validate_main_exit
    have hne := run_validate_exit_ne_two text mg kS kF compliance draft
      (thr.getD (default_threshold compliance)) commit
    by_cases hr : 0 ≤ thr.getD (default_threshold compliance) ∧
        thr.getD (default_threshold compliance) ≤ 1
    · rw [if_neg (by simpa using hr)]
      cases inputGiven <;> cases inputExists <;> cases manifestExists <;>
        simp_all
    · rw [if_pos (by simpa using hr)]
      simp [hr]
  · unfold parse_main_exit
    cases pFile
    · simp
    · cases hsig : check_manifest_signature pSig pGpg pCompliance with
      | error msg => simp
      | ok st =>
        cases pManifest
        · simp
        · cases pEntry with
          | none => simp
          | some pe =>
            by_cases hd : pDigest ≠ pe.sha256
            · simp [hd]
            · by_cases hq : (assess_risk pPii).1
              · simp [hd, hq]
              · cases hschema : validate_output_schema
                  (build_output pe pElems pDigest st) with
                | error msg2 => simp [hd, hq, hschema]
                | ok u => simp [hd, hq, hschema]
  · intro hmiss
    unfold parse_main_exit
    rcases hmiss with hf | hm
    · rw [hf]; rfl
    · cases pFile
      · rfl
      · cases hsig : check_manifest_signature pSig pGpg pCompliance
        · rfl
        · rw [hm]; rfl
  · unfold ingest_main_exit
    cases iFile
    · simp
    · cases happ : ingest_append hashM mp s e <;> simp
  · intro hf
    unfold ingest_main_exit
    rw [hf]
    rfl

/-- Witness for C7 (amended): a complete parse run exits 0; an ingest run
with a missing target file exits 1; a validate run with a missing
manifest exits 2. -/
theorem C7_exit_codes_witness :
    parse_main_exit true false none false true (some C4entry) "c0ffee" []
      [⟨"text", "UNKNOWN_STRUCTURE", "hello"⟩] = 0 ∧
    ingest_main_exit C4hash "data/manifest.json" false
      ⟨none, LockRead.missing⟩ C4entry = 1 ∧
    validate_main_exit none false true false "x" [] [] [] false false "c" = 2 :=
  ⟨by decide,
   (C7_exit_codes none false true false "x" [] [] [] false false "c"
      true false none false true (some C4entry) "c0ffee" []
      [⟨"text", "UNKNOWN_STRUCTURE", "hello"⟩]
      C4hash "data/manifest.json" false ⟨none, LockRead.missing⟩ C4entry).2.2.2.2
      rfl,
   (C7_exit_codes none false true false "x" [] [] [] false false "c"
      true false none false true (some C4entry) "c0ffee" []
      [⟨"text", "UNKNOWN_STRUCTURE", "hello"⟩]
      C4hash "data/manifest.json" false ⟨none, LockRead.missing⟩ C4entry).1.mpr
      (Or.inr (Or.inr rfl))⟩

end VibeResearch
